import Mathlib

/-!
Verification of the tool-call interception, resolution, and dispatch pipeline
of the enhanced-cli-boilerplate repository.

The definitions below are a shallow embedding of the JavaScript source:

* `src/cli.js` — `parseToolCalls` (regex extraction + eval of the argument
  expression), the tool-execution loop of `handleChatMode`, the single
  follow-up summarization prompt, and the `SmitheryClient` connection state
  machine (reconnect bounded by `maxReconnectAttempts`).
* `src/server.js` — the `/api/tools/list` aggregation, the `/api/tools/call`
  dispatch switch, the Brave free-text result normalization, and the Ordiscan
  parameter construction and JSON-or-raw-text result parsing.

Strings are processed as `List Char`; recursive scanners take an explicit
fuel argument that is always seeded large enough for the input at hand.
-/

namespace EnhancedCli

/-- The apostrophe character (used by the modelled JavaScript string
literals and HTML entity decoding). -/
def squote : Char := Char.ofNat 39

/-- Opening curly brace character. -/
def obrace : Char := Char.ofNat 123

/-- Closing curly brace character. -/
def cbrace : Char := Char.ofNat 125

/-- JavaScript `\w` word characters: ASCII letters, digits, underscore. -/
def isWordChar (c : Char) : Bool := c.isAlphanum || c == '_'

/-- Whitespace characters recognised by the modelled JavaScript scanners. -/
def isWsChar (c : Char) : Bool := c == ' ' || c == '\t' || c == '\n' || c == '\r'

/-- Drop leading whitespace. -/
def skipWs (cs : List Char) : List Char := cs.dropWhile isWsChar

/-- Index of the first occurrence of `needle` in the list, if any
(the model of JavaScript `String.indexOf`). -/
def findSubIdx (needle : List Char) : List Char → Option Nat
  | [] => if needle.isEmpty then some 0 else none
  | c :: rest =>
    if needle.isPrefixOf (c :: rest) then some 0
    else
      match findSubIdx needle rest with
      | some i => some (i + 1)
      | none => none

/-- Whether `needle` occurs somewhere in `hay` (JavaScript `String.includes`). -/
def strContains (hay needle : String) : Bool :=
  (findSubIdx needle.data hay.data).isSome

/-- JavaScript `String.startsWith` (structurally recursive, unlike the
position-based core `String.startsWith`, so that concrete instances
reduce inside the kernel). -/
def strStartsWith (s p : String) : Bool := p.data.isPrefixOf s.data

/-- JavaScript `String.substring(n)`. -/
def strDrop (s : String) (n : Nat) : String := String.mk (s.data.drop n)

/-- JavaScript `String.trim`. -/
def strTrim (s : String) : String :=
  String.mk (((s.data.dropWhile Char.isWhitespace).reverse.dropWhile Char.isWhitespace).reverse)

/-- Worker for `strSplitOn`: split at each occurrence of the (non-empty)
separator, left to right. -/
def splitOnLoop (sep : List Char) : Nat → List Char → List (List Char)
  | 0, cs => [cs]
  | fuel + 1, cs =>
    match findSubIdx sep cs with
    | none => [cs]
    | some i => cs.take i :: splitOnLoop sep fuel (cs.drop (i + sep.length))

/-- JavaScript `String.split(sep)` for a non-empty literal separator. -/
def strSplitOn (s sep : String) : List String :=
  (splitOnLoop sep.data (s.length + 1) s.data).map String.mk

/-- Worker for `strReplaceAll`. -/
def replaceLoop (pat rep : List Char) : Nat → List Char → List Char
  | 0, cs => cs
  | fuel + 1, cs =>
    match findSubIdx pat cs with
    | none => cs
    | some i => cs.take i ++ rep ++ replaceLoop pat rep fuel (cs.drop (i + pat.length))

/-- JavaScript `String.replace(/pat/g, rep)` for a non-empty literal
pattern: replace every occurrence, left to right, non-overlapping. -/
def strReplaceAll (s pat rep : String) : String :=
  String.mk (replaceLoop pat.data rep.data (s.length + 1) s.data)

/-- Values produced by evaluating a tool-call argument expression
(cli.js line 243). Numbers are carried as integers: every argument
appearing in this development is integral. -/
inductive JSValue where
  | num (n : Int)
  | str (s : String)
  | boolean (b : Bool)
  | null
  | arr (elems : List JSValue)
  | obj (fields : List (String × JSValue))
deriving Repr

/-- JavaScript `+` restricted to the fragment modelled here:
number addition and string concatenation.  Other operand combinations
are outside the modelled fragment and make evaluation fail. -/
def jsAdd : JSValue → JSValue → Option JSValue
  | .num a, .num b => some (.num (a + b))
  | .str a, .str b => some (.str (a ++ b))
  | _, _ => none

/-- Parse a maximal run of decimal digits into a number. -/
def parseDigits (cs : List Char) : Option (Nat × List Char) :=
  let ds := cs.takeWhile Char.isDigit
  if ds.isEmpty then none
  else some (ds.foldl (fun acc c => acc * 10 + (c.toNat - 48)) 0, cs.drop ds.length)

/-- Read string-literal characters until the closing quote `q`
(escape sequences are outside the modelled fragment). -/
def parseStringBody (q : Char) : List Char → Option (List Char × List Char)
  | [] => none
  | c :: rest =>
    if c == q then some ([], rest)
    else
      match parseStringBody q rest with
      | some (body, rem) => some (c :: body, rem)
      | none => none

/-- Strip the keyword `kw` from the front of `cs`, requiring that it is not
followed by a further word character. -/
def stripKeyword (kw : List Char) (cs : List Char) : Option (List Char) :=
  if kw.isPrefixOf cs then
    let rest := cs.drop kw.length
    match rest with
    | [] => some []
    | c :: _ => if isWordChar c then none else some rest
  else none

/-- An object key: an identifier run or a quoted string. -/
def parseKey (cs : List Char) : Option (String × List Char) :=
  match cs with
  | [] => none
  | c :: rest =>
    if c == '"' || c == squote then
      match parseStringBody c rest with
      | some (body, rem) => some (String.mk body, rem)
      | none => none
    else
      let run := cs.takeWhile isWordChar
      if run.isEmpty then none else some (String.mk run, cs.drop run.length)

mutual

/-- Recursive-descent evaluator for the JavaScript expression fragment the
source feeds to `eval`: structured literals (object / array / string /
number / boolean / null), and — when `allowPlus` is set — the binary `+`
operator, which is an expression form no structured-literal grammar admits.
With `allowPlus := false` this is exactly the literal grammar. -/
def parseExprA (allowPlus : Bool) : Nat → List Char → Option (JSValue × List Char)
  | 0, _ => none
  | fuel + 1, cs =>
    match parseTermA allowPlus fuel (skipWs cs) with
    | none => none
    | some (v, rest) => parsePlusA allowPlus fuel v rest

/-- Fold a chain of `+` operators after an initial operand (only in the
`allowPlus` grammar). -/
def parsePlusA (allowPlus : Bool) : Nat → JSValue → List Char → Option (JSValue × List Char)
  | 0, _, _ => none
  | fuel + 1, v, cs =>
    if allowPlus then
      match skipWs cs with
      | '+' :: rest =>
        match parseTermA allowPlus fuel (skipWs rest) with
        | none => none
        | some (w, rem) =>
          match jsAdd v w with
          | none => none
          | some u => parsePlusA allowPlus fuel u rem
      | _ => some (v, cs)
    else some (v, cs)

/-- A single operand: literal value, array, or object. -/
def parseTermA (allowPlus : Bool) : Nat → List Char → Option (JSValue × List Char)
  | 0, _ => none
  | fuel + 1, cs =>
    match cs with
    | [] => none
    | c :: rest =>
      if c == '"' || c == squote then
        match parseStringBody c rest with
        | some (body, rem) => some (.str (String.mk body), rem)
        | none => none
      else if c.isDigit then
        match parseDigits cs with
        | some (n, rem) => some (.num (Int.ofNat n), rem)
        | none => none
      else if c == '-' then
        match parseDigits rest with
        | some (n, rem) => some (.num (-(Int.ofNat n)), rem)
        | none => none
      else if c == '[' then
        match skipWs rest with
        | ']' :: rem => some (.arr [], rem)
        | cs1 => parseElemsA allowPlus fuel [] cs1
      else if c == obrace then
        match skipWs rest with
        | [] => none
        | d :: rem =>
          if d == cbrace then some (.obj [], rem)
          else parseFieldsA allowPlus fuel [] (d :: rem)
      else
        match stripKeyword ['t', 'r', 'u', 'e'] cs with
        | some rem => some (.boolean true, rem)
        | none =>
          match stripKeyword ['f', 'a', 'l', 's', 'e'] cs with
          | some rem => some (.boolean false, rem)
          | none =>
            match stripKeyword ['n', 'u', 'l', 'l'] cs with
            | some rem => some (.null, rem)
            | none => none

/-- Comma-separated array elements up to the closing bracket. -/
def parseElemsA (allowPlus : Bool) : Nat → List JSValue → List Char → Option (JSValue × List Char)
  | 0, _, _ => none
  | fuel + 1, acc, cs =>
    match parseExprA allowPlus fuel cs with
    | none => none
    | some (v, rest) =>
      match skipWs rest with
      | ',' :: rem => parseElemsA allowPlus fuel (acc ++ [v]) rem
      | ']' :: rem => some (.arr (acc ++ [v]), rem)
      | _ => none

/-- Comma-separated `key : value` object fields up to the closing brace. -/
def parseFieldsA (allowPlus : Bool) : Nat → List (String × JSValue) → List Char → Option (JSValue × List Char)
  | 0, _, _ => none
  | fuel + 1, acc, cs =>
    match parseKey (skipWs cs) with
    | none => none
    | some (k, rest) =>
      match skipWs rest with
      | ':' :: rem =>
        match parseExprA allowPlus fuel rem with
        | none => none
        | some (v, rest2) =>
          match skipWs rest2 with
          | ',' :: rem2 => parseFieldsA allowPlus fuel (acc ++ [(k, v)]) rem2
          | d :: rem2 =>
            if d == cbrace then some (.obj (acc ++ [(k, v)]), rem2) else none
          | [] => none
      | _ => none

end

/-- Model of cli.js line 243, `eval('(' + paramsStr + ')')`: the argument
text is evaluated as a JavaScript expression (over the fragment of
`parseExprA` with `allowPlus := true`), requiring the whole text to be
consumed.  `none` corresponds to `eval` throwing. -/
def jsEvalArg (s : String) : Option JSValue :=
  match parseExprA true (8 * (s.length + 1)) s.data with
  | some (v, rest) => if (skipWs rest).isEmpty then some v else none
  | none => none

/-- Modelled from the spec: the safe structured-literal parser prescribed by
§4.1 — "object/array/string/number/boolean/null only; reject arbitrary
code".  The same grammar as `jsEvalArg` with the `+` operator production
removed, so that only structured literals are accepted.  It exists to be
compared with the source's eval-based acceptance. -/
def structuredLiteralOnly (s : String) : Option JSValue :=
  match parseExprA false (8 * (s.length + 1)) s.data with
  | some (v, rest) => if (skipWs rest).isEmpty then some v else none
  | none => none

/-! ## Tool-call extraction (cli.js `parseToolCalls`, lines 234-266) -/

/-- The opening tool-call marker. -/
def openMarker : List Char := "<tool>".data

/-- The closing tool-call marker. -/
def closeMarker : List Char := "</tool>".data

/-- Worker for `extractToolSegments`: repeatedly find the next `<tool>`
marker and the nearest following `</tool>` marker (the non-greedy capture
of the regex `<tool>(.*?)<\/tool>` with the `g` and `s` flags), emitting
the text between them and resuming after the closing marker. -/
def extractLoop : Nat → List Char → List String
  | 0, _ => []
  | fuel + 1, cs =>
    match findSubIdx openMarker cs with
    | none => []
    | some i =>
      let afterOpen := cs.drop (i + openMarker.length)
      match findSubIdx closeMarker afterOpen with
      | none => []
      | some j =>
        String.mk (afterOpen.take j) :: extractLoop fuel (afterOpen.drop (j + closeMarker.length))

/-- All tool-call segments of an assistant response, in document order. -/
def extractToolSegments (content : String) : List String :=
  extractLoop content.length content.data

/-- Index of the last `)` in the list, if any (the end of the greedy
`(.*)` capture of the regex `(\w+)\((.*)\)` with the `s` flag). -/
def lastParenIdx (cs : List Char) : Option Nat :=
  match findSubIdx [')'] cs.reverse with
  | some r => some (cs.length - 1 - r)
  | none => none

/-- Worker for `matchCall`: find the leftmost run of word characters that is
immediately followed by `(` with some `)` occurring later; the captured
name is that run and the captured argument text extends to the last `)`.
Skipping a failed run whole is sound: a match attempt starting inside a
word run fails for the same reason as the attempt at the run's start. -/
def matchCallLoop : Nat → List Char → Option (String × String)
  | 0, _ => none
  | fuel + 1, cs =>
    match cs with
    | [] => none
    | c :: rest =>
      if isWordChar c then
        let run := cs.takeWhile isWordChar
        let after := cs.drop run.length
        match after with
        | '(' :: tail =>
          match lastParenIdx tail with
          | some k => some (String.mk run, String.mk (tail.take k))
          | none => none
        | _ => matchCallLoop fuel after
      else matchCallLoop fuel rest

/-- Model of cli.js line 240, `functionCall.match(/(\w+)\((.*)\)/s)`:
the call-target identifier and the argument text of one segment. -/
def matchCall (cs : List Char) : Option (String × String) :=
  matchCallLoop cs.length cs

/-- One entry of the `availableTools` list fetched from `/api/tools/list`
(only the fields the modelled logic consults). -/
structure ToolEntry where
  name : String
  source : Option String
deriving Repr, DecidableEq

/-- Model of cli.js lines 245-254: reconcile local and Smithery naming
conventions for the Brave search tools against the available-tools list. -/
def mapToolName (availableTools : List ToolEntry) (toolName : String) : String :=
  if toolName == "brave_web_search" || toolName == "brave-search" then
    match availableTools.find? (fun t => t.name == "brave_web_search") with
    | some _ => "brave_web_search"
    | none =>
      match availableTools.find? (fun t => t.name == "brave-search") with
      | some _ => "brave-search"
      | none => toolName
  else if toolName == "brave_local_search" then "brave_local_search"
  else toolName

/-- One parsed tool invocation. -/
structure ToolCallRequest where
  name : String
  arguments : JSValue
deriving Repr

/-- Parse one extracted segment: match the call shape, evaluate the argument
text, and map the tool name.  `none` models the branches of the source
that yield `null` for the segment (no call-shape match, or `eval`
throwing, which is caught and logged). -/
def parseSegment (availableTools : List ToolEntry) (seg : String) : Option ToolCallRequest :=
  match matchCall seg.data with
  | some (toolName, paramsStr) =>
    match jsEvalArg paramsStr with
    | some params => some { name := mapToolName availableTools toolName, arguments := params }
    | none => none
  | none => none

/-- Model of cli.js `parseToolCalls` (lines 234-266): extract every marker
segment, parse each to an optional request (`matches.map(...)`), and drop
the failures (`.filter(Boolean)`). -/
def parseToolCalls (availableTools : List ToolEntry) (content : String) : List ToolCallRequest :=
  ((extractToolSegments content).map (parseSegment availableTools)).reduceOption

/-! ## JSON values, `JSON.parse` and `JSON.stringify(v, null, 2)` models

Server responses and tool results are JSON data.  Numeric literals are
carried verbatim as their lexeme: no property proved here depends on the
numeric value of a JSON number, and this avoids modelling floating point. -/

/-- A parsed JSON value. -/
inductive JsonValue where
  | jnull
  | jbool (b : Bool)
  | jnum (lexeme : String)
  | jstr (s : String)
  | jarr (elems : List JsonValue)
  | jobj (fields : List (String × JsonValue))
deriving Repr

/-- Set a field of a JavaScript object: an existing key keeps its position
and gets the new value, a new key is appended (JavaScript property
assignment, also the duplicate-key rule of `JSON.parse`). -/
def objSet (fields : List (String × JsonValue)) (k : String) (v : JsonValue) :
    List (String × JsonValue) :=
  match fields with
  | [] => [(k, v)]
  | (k0, v0) :: rest => if k0 == k then (k0, v) :: rest else (k0, v0) :: objSet rest k v

/-- Look up a field of a JavaScript object (`undefined` becomes `none`). -/
def objGet (fields : List (String × JsonValue)) (k : String) : Option JsonValue :=
  match fields with
  | [] => none
  | (k0, v0) :: rest => if k0 == k then some v0 else objGet rest k

/-- Hexadecimal digit value. -/
def hexVal (c : Char) : Option Nat :=
  if c.isDigit then some (c.toNat - 48)
  else if 'a' ≤ c && c ≤ 'f' then some (c.toNat - 87)
  else if 'A' ≤ c && c ≤ 'F' then some (c.toNat - 55)
  else none

/-- JSON string-literal body after the opening quote, decoding the standard
escape sequences. -/
def jsonStringLit : Nat → List Char → Option (String × List Char)
  | 0, _ => none
  | fuel + 1, cs =>
    match cs with
    | [] => none
    | c :: rest =>
      if c == '"' then some ("", rest)
      else if c == '\\' then
        match rest with
        | [] => none
        | e :: rest2 =>
          let dec : Option (Char × List Char) :=
            if e == '"' then some ('"', rest2)
            else if e == '\\' then some ('\\', rest2)
            else if e == '/' then some ('/', rest2)
            else if e == 'b' then some (Char.ofNat 8, rest2)
            else if e == 'f' then some (Char.ofNat 12, rest2)
            else if e == 'n' then some ('\n', rest2)
            else if e == 'r' then some ('\r', rest2)
            else if e == 't' then some ('\t', rest2)
            else if e == 'u' then
              match rest2 with
              | h1 :: h2 :: h3 :: h4 :: rest3 =>
                match hexVal h1, hexVal h2, hexVal h3, hexVal h4 with
                | some a, some b, some c2, some d =>
                  some (Char.ofNat (((a * 16 + b) * 16 + c2) * 16 + d), rest3)
                | _, _, _, _ => none
              | _ => none
            else none
          match dec with
          | none => none
          | some (ch, rem) =>
            match jsonStringLit fuel rem with
            | some (s, rem2) => some (String.mk [ch] ++ s, rem2)
            | none => none
      else if c.toNat < 32 then none
      else
        match jsonStringLit fuel rest with
        | some (s, rem) => some (String.mk [c] ++ s, rem)
        | none => none

/-- JSON integer part: `0` or a nonzero digit followed by digits. -/
def jsonIntPart : List Char → Option (List Char × List Char)
  | [] => none
  | c :: rest =>
    if c == '0' then some (['0'], rest)
    else if c.isDigit then
      let ds := rest.takeWhile Char.isDigit
      some (c :: ds, rest.drop ds.length)
    else none

/-- Optional JSON fraction part. -/
def jsonFracPart (cs : List Char) : Option (List Char × List Char) :=
  match cs with
  | '.' :: rest =>
    let ds := rest.takeWhile Char.isDigit
    if ds.isEmpty then none else some ('.' :: ds, rest.drop ds.length)
  | _ => some ([], cs)

/-- Optional JSON exponent part. -/
def jsonExpPart (cs : List Char) : Option (List Char × List Char) :=
  match cs with
  | [] => some ([], cs)
  | c :: rest =>
    if c == 'e' || c == 'E' then
      match rest with
      | [] => none
      | s :: rest2 =>
        if s == '+' || s == '-' then
          let ds := rest2.takeWhile Char.isDigit
          if ds.isEmpty then none else some (c :: s :: ds, rest2.drop ds.length)
        else
          let ds := rest.takeWhile Char.isDigit
          if ds.isEmpty then none else some (c :: ds, rest.drop ds.length)
    else some ([], cs)

/-- A JSON number literal, captured as its lexeme. -/
def jsonNumber (cs : List Char) : Option (List Char × List Char) :=
  let (neg, cs1) :=
    match cs with
    | '-' :: rest => ((['-'] : List Char), rest)
    | _ => ([], cs)
  match jsonIntPart cs1 with
  | none => none
  | some (ip, cs2) =>
    match jsonFracPart cs2 with
    | none => none
    | some (fp, cs3) =>
      match jsonExpPart cs3 with
      | none => none
      | some (ep, cs4) => some (neg ++ ip ++ fp ++ ep, cs4)

mutual

/-- One JSON value with leading whitespace. -/
def jsonVal : Nat → List Char → Option (JsonValue × List Char)
  | 0, _ => none
  | fuel + 1, cs =>
    match skipWs cs with
    | [] => none
    | c :: rest =>
      if c == '"' then
        match jsonStringLit (rest.length + 1) rest with
        | some (s, rem) => some (.jstr s, rem)
        | none => none
      else if c == obrace then
        match skipWs rest with
        | [] => none
        | d :: rem =>
          if d == cbrace then some (.jobj [], rem)
          else jsonMembers fuel [] (d :: rem)
      else if c == '[' then
        match skipWs rest with
        | ']' :: rem => some (.jarr [], rem)
        | cs1 => jsonElements fuel [] cs1
      else if c == '-' || c.isDigit then
        match jsonNumber (c :: rest) with
        | some (lex, rem) => some (.jnum (String.mk lex), rem)
        | none => none
      else if ['t', 'r', 'u', 'e'].isPrefixOf (c :: rest) then
        some (.jbool true, (c :: rest).drop 4)
      else if ['f', 'a', 'l', 's', 'e'].isPrefixOf (c :: rest) then
        some (.jbool false, (c :: rest).drop 5)
      else if ['n', 'u', 'l', 'l'].isPrefixOf (c :: rest) then
        some (.jnull, (c :: rest).drop 4)
      else none

/-- JSON object members after the opening brace (duplicate keys follow the
last-wins rule via `objSet`). -/
def jsonMembers : Nat → List (String × JsonValue) → List Char → Option (JsonValue × List Char)
  | 0, _, _ => none
  | fuel + 1, acc, cs =>
    match skipWs cs with
    | [] => none
    | c :: rest =>
      if c == '"' then
        match jsonStringLit (rest.length + 1) rest with
        | some (k, rem) =>
          match skipWs rem with
          | ':' :: rem2 =>
            match jsonVal fuel rem2 with
            | some (v, rem3) =>
              match skipWs rem3 with
              | ',' :: rem4 => jsonMembers fuel (objSet acc k v) rem4
              | d :: rem4 =>
                if d == cbrace then some (.jobj (objSet acc k v), rem4) else none
              | [] => none
            | none => none
          | _ => none
        | none => none
      else none

/-- JSON array elements after the opening bracket. -/
def jsonElements : Nat → List JsonValue → List Char → Option (JsonValue × List Char)
  | 0, _, _ => none
  | fuel + 1, acc, cs =>
    match jsonVal fuel cs with
    | some (v, rest) =>
      match skipWs rest with
      | ',' :: rem => jsonElements fuel (acc ++ [v]) rem
      | ']' :: rem => some (.jarr (acc ++ [v]), rem)
      | _ => none
    | none => none

end

/-- Model of `JSON.parse`: parse one JSON value and require the whole input
to be consumed; `none` corresponds to `JSON.parse` throwing. -/
def jsonParse (s : String) : Option JsonValue :=
  match jsonVal (8 * (s.length + 1)) s.data with
  | some (v, rest) => if (skipWs rest).isEmpty then some v else none
  | none => none

/-- Escape one character for a JSON string literal (the control-character
escapes beyond these do not occur in the values this development builds). -/
def escapeJsonChar (c : Char) : String :=
  if c == '"' then "\\\""
  else if c == '\\' then "\\\\"
  else if c == '\n' then "\\n"
  else if c == '\r' then "\\r"
  else if c == '\t' then "\\t"
  else String.mk [c]

/-- Escape a string for a JSON string literal. -/
def escapeJson (s : String) : String := String.join (s.data.map escapeJsonChar)

/-- Indentation produced by `JSON.stringify(v, null, 2)` at nesting depth `d`. -/
def indentOf (d : Nat) : String := String.mk (List.replicate (2 * d) ' ')

mutual

/-- Model of `JSON.stringify(v, null, 2)` at nesting depth `d`. -/
def stringify2 : JsonValue → Nat → String
  | .jnull, _ => "null"
  | .jbool true, _ => "true"
  | .jbool false, _ => "false"
  | .jnum lex, _ => lex
  | .jstr s, _ => "\"" ++ escapeJson s ++ "\""
  | .jarr [], _ => "[]"
  | .jarr (x :: xs), d =>
    "[\n" ++ String.intercalate ",\n" (stringifyItems (x :: xs) (d + 1)) ++
      "\n" ++ indentOf d ++ "]"
  | .jobj [], _ => "\x7b\x7d"
  | .jobj (f :: fs), d =>
    "\x7b\n" ++ String.intercalate ",\n" (stringifyFields (f :: fs) (d + 1)) ++
      "\n" ++ indentOf d ++ "\x7d"

/-- Pretty-printed array items, each on its own indented line. -/
def stringifyItems : List JsonValue → Nat → List String
  | [], _ => []
  | x :: xs, d => (indentOf d ++ stringify2 x d) :: stringifyItems xs d

/-- Pretty-printed object fields, each on its own indented line. -/
def stringifyFields : List (String × JsonValue) → Nat → List String
  | [], _ => []
  | (k, v) :: fs, d =>
    (indentOf d ++ "\"" ++ escapeJson k ++ "\": " ++ stringify2 v d) :: stringifyFields fs d

end

/-! ## Tool execution loop and follow-up aggregation
(cli.js `handleChatMode`, lines 269-416) -/

/-- Outcome of one `POST /api/tools/call` round trip as observed by the CLI:
a response with `success: true` and a result, a response whose body is
falsy or has `success: false` (carrying an optional error string), or a
thrown transport error. -/
inductive CallOutcome where
  | ok (result : JsonValue)
  | httpFail (error : Option String)
  | netError (message : String)

/-- One collected tool result (cli.js lines 318-321, 328-332, 339-343,
351-355).  Exactly one of `result` / `error` is populated according to
`success`. -/
structure ToolResult where
  toolName : String
  success : Bool
  result : Option JsonValue
  error : Option String
deriving Repr

/-- JavaScript `x || 'Unknown error'` applied to the optional error string
of a failed tool response. -/
def errorOrUnknown : Option String → String
  | some e => if e == "" then "Unknown error" else e
  | none => "Unknown error"

/-- One iteration of the tool-execution loop (cli.js lines 290-357): look
the mapped name up in `availableTools`; when present, call the server and
record success or failure; when absent, record a not-found failure.  `net`
is the network environment giving the server's response to a call. -/
def execOne (availableTools : List ToolEntry) (net : String → JSValue → CallOutcome)
    (c : ToolCallRequest) : ToolResult :=
  match availableTools.find? (fun t => t.name == c.name) with
  | some _ =>
    match net c.name c.arguments with
    | .ok r => { toolName := c.name, success := true, result := some r, error := none }
    | .httpFail e =>
      { toolName := c.name, success := false, result := none, error := some (errorOrUnknown e) }
    | .netError m =>
      { toolName := c.name, success := false, result := none, error := some m }
  | none =>
    { toolName := c.name, success := false, result := none,
      error := "Tool \"" ++ c.name ++ "\" not found" }

/-- The whole execution loop: every parsed call is executed in order and
contributes exactly one `ToolResult`; a failure never stops the loop. -/
def executeToolCalls (availableTools : List ToolEntry) (net : String → JSValue → CallOutcome)
    (calls : List ToolCallRequest) : List ToolResult :=
  calls.map (execOne availableTools net)

/-- The `hasErrors` flag: set (once) by any failing iteration of the loop. -/
def hasErrors (rs : List ToolResult) : Bool := rs.any (fun r => !r.success)

/-- The rendering of a successful result in the mixed-results prompt
(cli.js line 372). -/
def successLine (r : ToolResult) : String :=
  "- " ++ r.toolName ++ ": " ++
    (match r.result with
     | some v => stringify2 v 0
     | none => "undefined")

/-- The rendering of a failed result in the mixed-results prompt
(cli.js line 375). -/
def failureLine (r : ToolResult) : String :=
  "- " ++ r.toolName ++ ": " ++
    (match r.error with
     | some e => e
     | none => "undefined")

/-- The rendering of a result in the all-success prompt (cli.js line 381). -/
def allSuccessLine (r : ToolResult) : String :=
  r.toolName ++ " results: " ++
    (match r.result with
     | some v => stringify2 v 0
     | none => "undefined")

/-- The tool results in the order they are interpolated into the single
follow-up prompt (cli.js lines 363-389): in the mixed case all successes
(lines 366, 372) followed by all failures (lines 367, 375); in the
all-success case the collected order (line 380). -/
def reportedResults (rs : List ToolResult) : List ToolResult :=
  if hasErrors rs then rs.filter (fun r => r.success) ++ rs.filter (fun r => !r.success)
  else rs

/-- The single follow-up prompt string (cli.js lines 369-377 and 384-388). -/
def followUpPrompt (rs : List ToolResult) : String :=
  if hasErrors rs then
    let successfulResults := rs.filter (fun r => r.success)
    let failedResults := rs.filter (fun r => !r.success)
    "I executed " ++ toString rs.length ++ " tool(s) with the following results:\n\n" ++
      "SUCCESSFUL TOOLS (" ++ toString successfulResults.length ++ "):\n" ++
      String.intercalate "\n" (successfulResults.map successLine) ++
      "\n\nFAILED TOOLS (" ++ toString failedResults.length ++ "):\n" ++
      String.intercalate "\n" (failedResults.map failureLine) ++
      "\n\nPlease summarize the successful results for the user, acknowledge any failures, " ++
      "and ask if they would like to do anything further with the data or try alternative " ++
      "approaches for the failed tools."
  else
    "I successfully executed " ++ toString rs.length ++
      " tool(s) and got the following results:\n\n" ++
      String.intercalate "\n\n" (rs.map allSuccessLine) ++
      "\n\nPlease summarize this data for the user and then ask if they would like to do " ++
      "anything further with it."

/-- Number of follow-up summarization requests submitted to the
conversational AI for one batch of collected results (cli.js line 360:
the single `client.chat` call guarded by `toolResults.length > 0`). -/
def summarizationRequestCount (rs : List ToolResult) : Nat :=
  if rs.length > 0 then 1 else 0

/-! ## SmitheryClient connection state machine
(cli.js lines 480-619; the class wrapping the hosted MCP transport) -/

/-- The connection-relevant fields of a `SmitheryClient` instance. -/
structure SmitheryState where
  isConnected : Bool
  hasClient : Bool
  reconnectAttempts : Nat
  maxReconnectAttempts : Nat
deriving Repr, DecidableEq

/-- A freshly constructed client (cli.js lines 481-490): no transport,
not connected, zero reconnect attempts, bound of three. -/
def smitheryNew : SmitheryState :=
  { isConnected := false, hasClient := false, reconnectAttempts := 0, maxReconnectAttempts := 3 }

/-- Model of `SmitheryClient.initialize` (cli.js lines 496-529).  The
`connectOutcome` argument is the network environment: whether the
transport handshake succeeds.  Success sets `isConnected` and resets the
attempt counter to zero; failure leaves the client disconnected.  In both
cases a fresh client object has been constructed. -/
def smitheryInitStep (st : SmitheryState) (connectOutcome : Bool) : Bool × SmitheryState :=
  if connectOutcome then
    (true, { isConnected := true, hasClient := true, reconnectAttempts := 0,
             maxReconnectAttempts := st.maxReconnectAttempts })
  else
    (false, { isConnected := false, hasClient := true, reconnectAttempts := st.reconnectAttempts,
              maxReconnectAttempts := st.maxReconnectAttempts })

/-- Model of `SmitheryClient.ensureConnection` (cli.js lines 535-547).
Returns the connection boolean, the new state, and the number of network
connection attempts made (0 or 1).  Connected: no-op.  Disconnected with
the counter below the bound: increment the counter and attempt one
(re)connect.  Counter exhausted: return `false` without any attempt. -/
def smitheryEnsure (st : SmitheryState) (connectOutcome : Bool) :
    Bool × SmitheryState × Nat :=
  if st.isConnected && st.hasClient then (true, st, 0)
  else if st.reconnectAttempts < st.maxReconnectAttempts then
    let st1 := { st with reconnectAttempts := st.reconnectAttempts + 1 }
    let (ok, st2) := smitheryInitStep st1 connectOutcome
    (ok, st2, 1)
  else (false, st, 0)

/-- The state after one failed `ensureConnection` (the transport refuses
the handshake). -/
def smitheryEnsureFailed (st : SmitheryState) : SmitheryState :=
  (smitheryEnsure st false).2.1

/-! ## Server: Brave search result normalization
(server.js `/api/tools/call`, lines 350-391) -/

/-- One block of a hosted MCP response's `content` array (only the `text`
field is consulted; `none` models a block without a text field). -/
structure ContentBlock where
  text : Option String
deriving Repr

/-- Worker for `stripHtmlTags`: on `<`, consume through the next `>` when
one exists (the match of `/<[^>]*>/g`), otherwise keep the `<`. -/
def stripHtmlLoop : Nat → List Char → List Char
  | 0, _ => []
  | fuel + 1, cs =>
    match cs with
    | [] => []
    | c :: rest =>
      if c == '<' then
        match findSubIdx ['>'] rest with
        | some k => stripHtmlLoop fuel (rest.drop (k + 1))
        | none => c :: stripHtmlLoop fuel rest
      else c :: stripHtmlLoop fuel rest

/-- Model of `description.replace(/<[^>]*>/g, '')` (server.js line 368). -/
def stripHtmlTags (s : String) : String :=
  String.mk (stripHtmlLoop (s.length + 1) s.data)

/-- Model of the entity-decoding chain of server.js lines 369-373, in the
same order (`&amp;` last). -/
def decodeEntities (s : String) : String :=
  strReplaceAll (strReplaceAll (strReplaceAll (strReplaceAll (strReplaceAll s
    "&quot;" "\"") "&#x27;" (String.mk [squote])) "&lt;" "<") "&gt;" ">") "&amp;" "&"

/-- One line of a result block updates the accumulated
`(title, description, url)` triple (server.js lines 361-377). -/
def braveLineStep (acc : String × String × String) (line : String) : String × String × String :=
  let (title, description, url) := acc
  if strStartsWith line "Title: " then (strTrim (strDrop line 7), description, url)
  else if strStartsWith line "Description: " then
    (title, decodeEntities (stripHtmlTags (strTrim (strDrop line 13))), url)
  else if strStartsWith line "URL: " then (title, description, strTrim (strDrop line 5))
  else acc

/-- One normalized search hit. -/
structure SearchResult where
  title : String
  description : String
  url : String
deriving Repr, DecidableEq

/-- Parse one block: fold its lines and keep the hit only when both the
title and the url are non-empty (server.js line 379, `if (title && url)`). -/
def parseBlock (block : String) : Option SearchResult :=
  let lines := strSplitOn block "\n"
  let (t, d, u) := lines.foldl braveLineStep ("", "", "")
  if t != "" && u != "" then some { title := t, description := d, url := u } else none

/-- Parse the hosted free-text search payload: split on blank lines, drop
blocks that are whitespace only, and parse each remaining block
(server.js lines 355-382). -/
def parseBraveText (text : String) : List SearchResult :=
  ((strSplitOn text "\n\n").filter (fun b => strTrim b != "")).filterMap parseBlock

/-- The canonical search result envelope (server.js lines 386-391). -/
structure BraveResult where
  query : String
  total : Nat
  results : List SearchResult
  source : String
deriving Repr, DecidableEq

/-- Normalize a hosted Brave search response: parse the first content
block's text when present and non-empty, and wrap with `total` equal to
the number of retained hits (server.js lines 350-391). -/
def normalizeBraveSearch (query : String) (content : List ContentBlock) : BraveResult :=
  let parsedResults :=
    match content with
    | [] => []
    | b :: _ =>
      match b.text with
      | some t => if t == "" then [] else parseBraveText t
      | none => []
  { query := query, total := parsedResults.length, results := parsedResults,
    source := "smithery" }

/-! ## Server: dispatch routing (server.js `/api/tools/call`, lines 333-723) -/

/-- The connection flags and credentials the dispatch switch consults.
`smitheryReconnect` / `ordiscanReconnect` give the outcome of the inline
`initializeSmithery()` / `initializeOrdiscan()` reconnection attempt when
the corresponding connected flag is false. -/
structure ServerState where
  smitheryConnected : Bool
  smitheryReconnect : Bool
  ordiscanConnected : Bool
  ordiscanReconnect : Bool
  braveApiKey : Bool
deriving Repr, DecidableEq

/-- Which backend the dispatch switch hands a request to. -/
inductive Route where
  | smitheryCall (tool : String)
  | localBrave
  | hustleHeadless (toolKey : String)
  | hustleChat
  | ordiscanRoute (tool : String)
  | routeFail (msg : String)
deriving Repr, DecidableEq

/-- The 29 Ordiscan case labels of server.js lines 589-617. -/
def ordiscanToolNames : List String :=
  ["ordiscan_address_brc20_activity", "ordiscan_address_brc20", "ordiscan_brc20_info",
   "ordiscan_brc20_list", "ordiscan_collection_info", "ordiscan_collection_inscriptions",
   "ordiscan_collections_list", "ordiscan_inscription_info", "ordiscan_inscription_traits",
   "ordiscan_inscription_transfers", "ordiscan_inscriptions_activity",
   "ordiscan_inscriptions_detail", "ordiscan_inscriptions_list",
   "ordiscan_address_inscriptions", "ordiscan_address_rare_sats", "ordiscan_rune_market",
   "ordiscan_rune_name_unlock", "ordiscan_runes_activity", "ordiscan_address_runes",
   "ordiscan_runes_list", "ordiscan_sat_info", "ordiscan_tx_info",
   "ordiscan_tx_inscription_transfers", "ordiscan_tx_inscriptions", "ordiscan_tx_runes",
   "ordiscan_utxo_rare_sats", "ordiscan_utxo_sat_ranges", "ordiscan_address_utxos",
   "ordiscan_main"]

/-- Model of the `switch (name)` of server.js lines 339-722, reduced to the
choice of servicing backend.  The Brave case dispatches to the hosted
gateway only under `name === 'brave_web_search'` (line 343); with that
exact-name test false it falls to the local implementation when a local
API key exists, else fails. -/
def routeToolCall (st : ServerState) (name : String) : Route :=
  if name == "brave-search" || name == "brave_web_search" then
    if (st.smitheryConnected || st.smitheryReconnect) && name == "brave_web_search" then
      .smitheryCall "brave_web_search"
    else if st.braveApiKey then .localBrave
    else .routeFail "Brave Search not available - no Smithery connection and no local API key configured"
  else if name == "brave_local_search" then
    if st.smitheryConnected || st.smitheryReconnect then .smitheryCall "brave_local_search"
    else .routeFail "Smithery Local Search not available - no Smithery connection"
  else if name == "rugcheck" then .hustleHeadless "rugcheck"
  else if name == "trending-tokens" then .hustleHeadless "birdeye-trending"
  else if name == "wallet-balance" then .hustleHeadless "wallet-balance"
  else if name == "crypto-chat" then .hustleChat
  else if ordiscanToolNames.contains name then
    if st.ordiscanConnected || st.ordiscanReconnect then .ordiscanRoute name
    else .routeFail (name ++ " not available - no Ordiscan connection")
  else .routeFail ("Unknown tool: " ++ name)

/-- The four built-in tools of the `/api/tools/list` response
(server.js lines 182-254; descriptors reduced to name and source tag). -/
def baseTools : List ToolEntry :=
  [{ name := "rugcheck", source := none }, { name := "trending-tokens", source := none },
   { name := "wallet-balance", source := none }, { name := "crypto-chat", source := none }]

/-- The local Brave fallback descriptor (server.js lines 301-328). -/
def localBraveEntry : ToolEntry := { name := "brave-search", source := some "local" }

/-- Model of the `/api/tools/list` aggregation (server.js lines 181-331):
built-ins, then the hosted Smithery listing when that backend is
connected, then the hosted Ordiscan listing when connected, then the
local Brave fallback when a local key exists and Smithery is not
connected.  `smitheryTools` / `ordiscanTools` are the tool names returned
by the respective hosted listing; the listing-failure path contributes
nothing and is subsumed by the corresponding flag being false. -/
def toolsListResponse (st : ServerState) (smitheryTools ordiscanTools : List String) :
    List ToolEntry :=
  baseTools
    ++ (if st.smitheryConnected then
          smitheryTools.map (fun n => { name := n, source := some "smithery" }) else [])
    ++ (if st.ordiscanConnected then
          ordiscanTools.map (fun n => { name := n, source := some "ordiscan" }) else [])
    ++ (if st.braveApiKey && !st.smitheryConnected then [localBraveEntry] else [])

/-! ## Server: Ordiscan dispatch branch (server.js lines 618-719) -/

/-- Is a JSON number lexeme the number zero (sign, fraction point and a
trailing exponent do not affect zeroness of the mantissa)? -/
def jnumIsZero (lex : String) : Bool :=
  let mantissa := lex.data.takeWhile (fun c => !(c == 'e' || c == 'E'))
  (mantissa.filter Char.isDigit).all (fun c => c == '0')

/-- JavaScript truthiness of a JSON value (an absent field, `undefined`,
is handled by `Option` at the call sites). -/
def jsTruthyVal : JsonValue → Bool
  | .jnull => false
  | .jbool b => b
  | .jnum lex => !jnumIsZero lex
  | .jstr s => s != ""
  | .jarr _ => true
  | .jobj _ => true

/-- JavaScript `a || b` over possibly-absent object fields. -/
def jsOr (a b : Option JsonValue) : Option JsonValue :=
  match a with
  | some v => if jsTruthyVal v then some v else b
  | none => b

/-- Model of server.js lines 632-644: the first content block's text is
attempted as JSON; on parse failure it is wrapped verbatim as
`{ data: <rawText> }`; an absent or empty text leaves `parsedData` as the
initial empty object. -/
def ordiscanParsedData (content : List ContentBlock) : JsonValue :=
  match content with
  | [] => .jobj []
  | b :: _ =>
    match b.text with
    | some t =>
      if t == "" then .jobj []
      else
        match jsonParse t with
        | some v => v
        | none => .jobj [("data", .jstr t)]
    | none => .jobj []

/-- The formatted Ordiscan result (server.js lines 646-710): a
family-specific subject field chosen by substring checks on the tool
name, plus the parsed data, the tool name, and the source tag. -/
structure OrdiscanResult where
  subject : Option (String × Option JsonValue)
  data : JsonValue
  tool : String
  source : String
deriving Repr

/-- The `name.includes(...)` chain of server.js lines 647-710 choosing the
subject field of the formatted result. -/
def ordiscanFormat (name : String) (params : List (String × JsonValue))
    (parsedData : JsonValue) : OrdiscanResult :=
  if strContains name "address" then
    { subject := some ("address", objGet params "address"), data := parsedData,
      tool := name, source := "ordiscan" }
  else if strContains name "inscription" then
    { subject := some ("inscription", jsOr (objGet params "id") (objGet params "number")),
      data := parsedData, tool := name, source := "ordiscan" }
  else if strContains name "brc20" then
    { subject := some ("token", objGet params "tick"), data := parsedData,
      tool := name, source := "ordiscan" }
  else if strContains name "rune" then
    { subject := some ("rune", jsOr (objGet params "name") (objGet params "runeName")),
      data := parsedData, tool := name, source := "ordiscan" }
  else if strContains name "collection" then
    { subject := some ("collection", objGet params "slug"), data := parsedData,
      tool := name, source := "ordiscan" }
  else if strContains name "tx" then
    { subject := some ("transaction", objGet params "txid"), data := parsedData,
      tool := name, source := "ordiscan" }
  else if strContains name "utxo" then
    { subject := some ("utxo", objGet params "utxo"), data := parsedData,
      tool := name, source := "ordiscan" }
  else if strContains name "sat" then
    { subject := some ("satoshi", objGet params "ordinal"), data := parsedData,
      tool := name, source := "ordiscan" }
  else { subject := none, data := parsedData, tool := name, source := "ordiscan" }

/-- The HTTP envelope of the Ordiscan branch as seen by the caller of
`/api/tools/call` (success with a formatted result, or the 500 error
produced by the outer catch). -/
structure OrdiscanResponse where
  success : Bool
  result : Option OrdiscanResult
  error : Option String
deriving Repr

/-- Model of the Ordiscan dispatch body (server.js lines 618-719), entered
once the connection check has passed.  `envKey` is the
`ORDISCAN_API_KEY` environment variable; `gateway` is the network
environment for `ordiscanClient.callTool`, returning the response content
or a thrown error message.  The second component lists the gateway calls
made: the argument object sent is the incoming `params` with the
`apiKey` field set (lines 622-628), and a missing or empty key throws
before any gateway call, surfacing through the catch chain as a failed
response. -/
def ordiscanDispatch (name : String) (params : List (String × JsonValue))
    (envKey : Option String)
    (gateway : String → List (String × JsonValue) → Except String (List ContentBlock)) :
    OrdiscanResponse × List (String × List (String × JsonValue)) :=
  let keyMissing : OrdiscanResponse × List (String × List (String × JsonValue)) :=
    ({ success := false, result := none,
       error := some ("Ordiscan " ++ name ++
         " failed: ORDISCAN_API_KEY environment variable is required but not set") }, [])
  match envKey with
  | some k =>
    if k == "" then keyMissing
    else
      let ordiscanParams := objSet params "apiKey" (.jstr k)
      match gateway name ordiscanParams with
      | .ok content =>
        ({ success := true,
           result := some (ordiscanFormat name params (ordiscanParsedData content)),
           error := none }, [(name, ordiscanParams)])
      | .error e =>
        ({ success := false, result := none,
           error := some ("Ordiscan " ++ name ++ " failed: " ++ e) }, [(name, ordiscanParams)])
  | none => keyMissing

/-! ## Helper lemmas -/

theorem filterMap_filter_isSome {α β : Type} (f : α → Option β) (l : List α) :
    (l.filter (fun a => (f a).isSome)).filterMap f = l.filterMap f := by
  induction l with
  | nil => rfl
  | cons a l ih =>
    cases h : f a <;> simp [List.filter_cons, List.filterMap_cons, h, ih]

theorem length_filterMap_eq_countP {α β : Type} (f : α → Option β) (l : List α) :
    (l.filterMap f).length = l.countP (fun a => (f a).isSome) := by
  induction l with
  | nil => rfl
  | cons a l ih => cases h : f a <;> simp [List.filterMap_cons, List.countP_cons, h, ih]

theorem parseToolCalls_eq_filterMap (tools : List ToolEntry) (content : String) :
    parseToolCalls tools content
      = (extractToolSegments content).filterMap (parseSegment tools) := by
  unfold parseToolCalls List.reduceOption
  rw [List.filterMap_map]
  rfl

theorem filter_pos_partition {α : Type} (p : α → Bool) (l : List α) :
    (l.filter p ++ l.filter (fun a => !p a)).filter p = l.filter p := by
  rw [List.filter_append, List.filter_filter, List.filter_filter]
  simp

theorem filter_neg_partition {α : Type} (p : α → Bool) (l : List α) :
    (l.filter p ++ l.filter (fun a => !p a)).filter (fun a => !p a)
      = l.filter (fun a => !p a) := by
  rw [List.filter_append, List.filter_filter, List.filter_filter]
  simp

theorem execOne_toolName (tools : List ToolEntry) (net : String → JSValue → CallOutcome)
    (c : ToolCallRequest) : (execOne tools net c).toolName = c.name := by
  unfold execOne
  cases tools.find? (fun t => t.name == c.name) with
  | none => rfl
  | some t => cases net c.name c.arguments <;> rfl

theorem exec_names (tools : List ToolEntry) (net : String → JSValue → CallOutcome)
    (calls : List ToolCallRequest) :
    (executeToolCalls tools net calls).map (fun r => r.toolName)
      = calls.map (fun c => c.name) := by
  unfold executeToolCalls
  rw [List.map_map]
  exact List.map_congr_left (fun c _ => execOne_toolName tools net c)

theorem exec_count (tools : List ToolEntry) (net : String → JSValue → CallOutcome)
    (calls : List ToolCallRequest) :
    summarizationRequestCount (executeToolCalls tools net calls)
      = (if calls.isEmpty then 0 else 1) := by
  cases calls with
  | nil => rfl
  | cons c cs => simp [executeToolCalls, summarizationRequestCount]

theorem reported_perm (rs : List ToolResult) : List.Perm (reportedResults rs) rs := by
  unfold reportedResults
  split_ifs
  · exact List.filter_append_perm _ rs
  · exact List.Perm.refl rs

theorem objGet_objSet_same (ps : List (String × JsonValue)) (k : String) (v : JsonValue) :
    objGet (objSet ps k v) k = some v := by
  induction ps with
  | nil => simp [objSet, objGet]
  | cons f rest ih =>
    obtain ⟨k0, v0⟩ := f
    by_cases h : (k0 == k) = true <;> simp [objSet, objGet, h, ih]

theorem objGet_objSet_other (ps : List (String × JsonValue)) (k key : String) (v : JsonValue)
    (h : (key == k) = false) : objGet (objSet ps k v) key = objGet ps key := by
  have hne : key ≠ k := beq_eq_false_iff_ne.mp h
  induction ps with
  | nil =>
    simp [objSet, objGet]
    exact fun e => hne e.symm
  | cons f rest ih =>
    obtain ⟨k0, v0⟩ := f
    by_cases h0 : (k0 == k) = true
    · have he : k0 = k := eq_of_beq h0
      have h0k : (k0 == key) = false := beq_eq_false_iff_ne.mpr (fun e => hne (he ▸ e).symm)
      simp [objSet, objGet, h0, h0k]
    · simp [objSet, objGet, h0, ih]

theorem objSet_append_of_absent (ps : List (String × JsonValue)) (k : String) (v : JsonValue)
    (h : objGet ps k = none) : objSet ps k v = ps ++ [(k, v)] := by
  induction ps with
  | nil => rfl
  | cons f rest ih =>
    obtain ⟨k0, v0⟩ := f
    by_cases h0 : (k0 == k) = true
    · simp [objGet, h0] at h
    · simp [objGet, h0] at h
      simp [objSet, h0, ih h]

theorem braveFold_url_of_no_url (lines : List String) :
    ∀ acc : String × String × String,
      (∀ line ∈ lines, strStartsWith line "URL: " = false) →
      (lines.foldl braveLineStep acc).2.2 = acc.2.2 := by
  induction lines with
  | nil => intro acc _; rfl
  | cons line rest ih =>
    intro acc h
    have hline := h line (List.mem_cons_self ..)
    have hrest : ∀ l ∈ rest, strStartsWith l "URL: " = false :=
      fun l hl => h l (List.mem_cons_of_mem _ hl)
    rw [List.foldl_cons, ih _ hrest]
    obtain ⟨t, d, u⟩ := acc
    simp [braveLineStep, hline]
    split_ifs <;> rfl

theorem parseBlock_of_no_url (block : String)
    (h : ∀ line ∈ strSplitOn block "\n", strStartsWith line "URL: " = false) :
    parseBlock block = none := by
  unfold parseBlock
  have hu := braveFold_url_of_no_url (strSplitOn block "\n") ("", "", "") h
  rcases hx : (strSplitOn block "\n").foldl braveLineStep ("", "", "") with ⟨t, d, u⟩
  rw [hx] at hu
  simp at hu
  simp [hx, hu]

theorem mapToolName_web (avail : List ToolEntry)
    (h : (avail.find? (fun t => t.name == "brave_web_search")).isSome = true) :
    mapToolName avail "brave_web_search" = "brave_web_search"
    ∧ mapToolName avail "brave-search" = "brave_web_search" := by
  obtain ⟨t, ht⟩ := Option.isSome_iff_exists.mp h
  constructor <;> (unfold mapToolName; simp [ht])

theorem mapToolName_local (avail : List ToolEntry)
    (hno : avail.find? (fun t => t.name == "brave_web_search") = none)
    (hloc : (avail.find? (fun t => t.name == "brave-search")).isSome = true) :
    mapToolName avail "brave-search" = "brave-search" := by
  obtain ⟨t, ht⟩ := Option.isSome_iff_exists.mp hloc
  unfold mapToolName
  simp [hno, ht]

theorem route_web_hosted (st : ServerState) (h : st.smitheryConnected = true) :
    routeToolCall st "brave_web_search" = Route.smitheryCall "brave_web_search" := by
  unfold routeToolCall
  simp [h]

theorem route_brave_search_local (st : ServerState) :
    routeToolCall st "brave-search"
      = (if st.braveApiKey then Route.localBrave
         else Route.routeFail
           "Brave Search not available - no Smithery connection and no local API key configured") := by
  unfold routeToolCall
  cases st.braveApiKey <;> simp

theorem route_hosted_only_exact (st : ServerState) (n : String)
    (h : routeToolCall st n = Route.smitheryCall "brave_web_search") :
    n = "brave_web_search" := by
  unfold routeToolCall at h
  split_ifs at h with h1 h2 h3 h4 h5 h6 h7 h8 h9 <;> simp_all

theorem smithery_ensure_exhausted (st : SmitheryState) (b : Bool)
    (hc : (st.isConnected && st.hasClient) = false)
    (hmax : st.maxReconnectAttempts ≤ st.reconnectAttempts) :
    smitheryEnsure st b = (false, st, 0) := by
  unfold smitheryEnsure
  rw [hc]
  simp [Nat.not_lt.mpr hmax]

theorem smithery_init_success (st : SmitheryState) (b : Bool) :
    (smitheryInitStep st true).1 = true
    ∧ (smitheryInitStep st true).2.isConnected = true
    ∧ (smitheryInitStep st true).2.reconnectAttempts = 0
    ∧ smitheryEnsure (smitheryInitStep st true).2 b
        = (true, (smitheryInitStep st true).2, 0) := by
  refine ⟨rfl, rfl, rfl, ?_⟩
  unfold smitheryEnsure smitheryInitStep
  simp

/-! ## Claim theorems -/

/-- C1 (amended): the single follow-up message reports every collected tool
result exactly once (a permutation of the collected batch); when every
call succeeded the results appear in the order the calls were parsed, and
when any call failed the message reports all successes first and then all
failures, each group preserving the parsed order. -/
theorem followup_report_order_partitioned (rs : List ToolResult) :
    List.Perm (reportedResults rs) rs
    ∧ (reportedResults rs).filter (fun r => r.success) = rs.filter (fun r => r.success)
    ∧ (reportedResults rs).filter (fun r => !r.success) = rs.filter (fun r => !r.success)
    ∧ (hasErrors rs = false → reportedResults rs = rs) := by
  refine ⟨reported_perm rs, ?_, ?_, ?_⟩
  · unfold reportedResults
    split_ifs
    · exact filter_pos_partition _ rs
    · rfl
  · unfold reportedResults
    split_ifs
    · exact filter_neg_partition _ rs
    · rfl
  · intro h
    simp [reportedResults, h]

/-- C1 witness: on an all-success batch the reported order is the collected
order itself. -/
theorem followup_report_order_partitioned_witness :
    reportedResults
        [{ toolName := "a", success := true, result := some JsonValue.jnull, error := none }]
      = [{ toolName := "a", success := true, result := some JsonValue.jnull, error := none }] :=
  (followup_report_order_partitioned
    [{ toolName := "a", success := true, result := some JsonValue.jnull, error := none }]).2.2.2 rfl

/-- C1 counterexample: a batch parsed as `bbb` then `aaa`, in which `bbb` is
not an available tool (so its call fails) and `aaa` succeeds, is reported
to the model as `aaa` before `bbb` — the successes-first partition of the
mixed-results prompt — and not in the order the calls were parsed. -/
theorem followup_report_order_counterexample :
    (reportedResults (executeToolCalls [{ name := "aaa", source := none }]
        (fun _ _ => CallOutcome.ok JsonValue.jnull)
        (parseToolCalls [{ name := "aaa", source := none }]
          "<tool>bbb({ })</tool><tool>aaa({ })</tool>"))).map (fun r => r.toolName)
      = ["aaa", "bbb"]
    ∧ (parseToolCalls [{ name := "aaa", source := none }]
        "<tool>bbb({ })</tool><tool>aaa({ })</tool>").map (fun c => c.name)
      = ["bbb", "aaa"] :=
  ⟨rfl, rfl⟩

/-- C2: every parsed call in a batch produces exactly one collected result,
in order (so a failing call never aborts the batch); a thrown call error
is recorded as a `success := false` result carrying the error message; and
exactly one follow-up summarization request is issued for a non-empty
batch, none for an empty one. -/
theorem batch_executes_all_single_followup (tools : List ToolEntry)
    (net : String → JSValue → CallOutcome) (calls : List ToolCallRequest) :
    (executeToolCalls tools net calls).length = calls.length
    ∧ (executeToolCalls tools net calls).map (fun r => r.toolName)
        = calls.map (fun c => c.name)
    ∧ summarizationRequestCount (executeToolCalls tools net calls)
        = (if calls.isEmpty then 0 else 1)
    ∧ (∀ (c : ToolCallRequest) (msg : String),
        (tools.find? (fun t => t.name == c.name)).isSome = true →
        net c.name c.arguments = CallOutcome.netError msg →
        execOne tools net c
          = { toolName := c.name, success := false, result := none, error := some msg }) := by
  refine ⟨by simp [executeToolCalls], exec_names tools net calls, exec_count tools net calls, ?_⟩
  intro c msg hf hn
  obtain ⟨t, ht⟩ := Option.isSome_iff_exists.mp hf
  unfold execOne
  rw [ht, hn]

/-- C2 witness: a thrown call error is recorded as a failed result with the
thrown message. -/
theorem batch_executes_all_single_followup_witness :
    execOne [{ name := "a", source := none }] (fun _ _ => CallOutcome.netError "boom")
        { name := "a", arguments := JSValue.null }
      = { toolName := "a", success := false, result := none, error := some "boom" } :=
  (batch_executes_all_single_followup [{ name := "a", source := none }]
      (fun _ _ => CallOutcome.netError "boom") []).2.2.2
    { name := "a", arguments := JSValue.null } "boom" rfl rfl

/-- C3 (amended): the parser does not restrict the argument text to
structured literals; it evaluates the text as a JavaScript expression
(cli.js line 243, `eval`), accepting any segment whose argument text
evaluates — including non-literal code such as `1+2` — and skipping a
segment exactly when evaluation throws. -/
theorem argument_text_accepted_iff_evaluable (tools : List ToolEntry) (seg nm ps : String)
    (h : matchCall seg.data = some (nm, ps)) :
    parseSegment tools seg
      = (jsEvalArg ps).map (fun v => { name := mapToolName tools nm, arguments := v }) := by
  unfold parseSegment
  rw [h]
  cases h2 : jsEvalArg ps <;> simp [h2]

/-- C3 witness: the segment `f(1+2)` matches with argument text `1+2`, and
its acceptance is exactly the evaluability of that text. -/
theorem argument_text_accepted_iff_evaluable_witness :
    matchCall "f(1+2)".data = some ("f", "1+2")
    ∧ parseSegment [] "f(1+2)"
        = (jsEvalArg "1+2").map (fun v => { name := mapToolName [] "f", arguments := v }) :=
  ⟨rfl, argument_text_accepted_iff_evaluable [] "f(1+2)" "f" "1+2" rfl⟩

/-- C3 counterexample: the argument text `1+2` is not a structured literal
(the literals-only parser rejects it), yet the tool call is accepted — the
text is executed as code and evaluates to `3` — instead of being
skipped. -/
theorem argument_text_eval_counterexample :
    (parseToolCalls [] "<tool>f(1+2)</tool>").map (fun c => c.name) = ["f"]
    ∧ (parseToolCalls [] "<tool>f(1+2)</tool>").map (fun c => c.arguments) = [JSValue.num 3]
    ∧ structuredLiteralOnly "1+2" = none :=
  ⟨rfl, rfl, rfl⟩

/-- C4: the parser returns exactly the requests of the segments that parse,
in document order — it equals the parse of the valid segments alone, so
an unparseable segment is dropped without affecting the rest, and the
number of returned requests is the number of valid segments. -/
theorem parser_returns_valid_segments_in_order (tools : List ToolEntry) (content : String) :
    parseToolCalls tools content
      = ((extractToolSegments content).filter
          (fun s => (parseSegment tools s).isSome)).filterMap (parseSegment tools)
    ∧ (parseToolCalls tools content).length
      = (extractToolSegments content).countP (fun s => (parseSegment tools s).isSome) := by
  constructor
  · rw [parseToolCalls_eq_filterMap, filterMap_filter_isSome]
  · rw [parseToolCalls_eq_filterMap, length_filterMap_eq_countP]

/-- C5: when the available-tools listing contains the hosted descriptor
`brave_web_search` and the hosted backend is connected, both requested
names resolve to the hosted `brave_web_search` dispatch; when the hosted
descriptor is absent, the local `brave-search` descriptor is listed, and
the hosted backend is disconnected (with the inline reconnect failing),
`brave-search` resolves to the local dispatch. -/
theorem brave_resolution_prefers_hosted (avail : List ToolEntry) (st : ServerState) :
    ((avail.find? (fun t => t.name == "brave_web_search")).isSome = true →
     st.smitheryConnected = true →
       mapToolName avail "brave_web_search" = "brave_web_search"
       ∧ mapToolName avail "brave-search" = "brave_web_search"
       ∧ routeToolCall st (mapToolName avail "brave_web_search")
           = Route.smitheryCall "brave_web_search"
       ∧ routeToolCall st (mapToolName avail "brave-search")
           = Route.smitheryCall "brave_web_search")
    ∧ (avail.find? (fun t => t.name == "brave_web_search") = none →
       (avail.find? (fun t => t.name == "brave-search")).isSome = true →
       st.smitheryConnected = false → st.smitheryReconnect = false → st.braveApiKey = true →
         mapToolName avail "brave-search" = "brave-search"
         ∧ routeToolCall st (mapToolName avail "brave-search") = Route.localBrave) := by
  constructor
  · intro hweb hconn
    obtain ⟨h1, h2⟩ := mapToolName_web avail hweb
    exact ⟨h1, h2, by rw [h1]; exact route_web_hosted st hconn,
           by rw [h2]; exact route_web_hosted st hconn⟩
  · intro hno hloc hdis hrec hkey
    have h1 := mapToolName_local avail hno hloc
    refine ⟨h1, ?_⟩
    rw [h1, route_brave_search_local st, hkey]
    simp

/-- C5 witness: with the hosted listing connected both names resolve to the
hosted dispatch; after disconnecting, `brave-search` resolves to the
local dispatch. -/
theorem brave_resolution_prefers_hosted_witness :
    (mapToolName (toolsListResponse
          { smitheryConnected := true, smitheryReconnect := false, ordiscanConnected := false,
            ordiscanReconnect := false, braveApiKey := true }
          ["brave_web_search", "brave_local_search"] []) "brave_web_search" = "brave_web_search"
     ∧ mapToolName (toolsListResponse
          { smitheryConnected := true, smitheryReconnect := false, ordiscanConnected := false,
            ordiscanReconnect := false, braveApiKey := true }
          ["brave_web_search", "brave_local_search"] []) "brave-search" = "brave_web_search"
     ∧ routeToolCall
          { smitheryConnected := true, smitheryReconnect := false, ordiscanConnected := false,
            ordiscanReconnect := false, braveApiKey := true }
          (mapToolName (toolsListResponse
            { smitheryConnected := true, smitheryReconnect := false, ordiscanConnected := false,
              ordiscanReconnect := false, braveApiKey := true }
            ["brave_web_search", "brave_local_search"] []) "brave_web_search")
          = Route.smitheryCall "brave_web_search"
     ∧ routeToolCall
          { smitheryConnected := true, smitheryReconnect := false, ordiscanConnected := false,
            ordiscanReconnect := false, braveApiKey := true }
          (mapToolName (toolsListResponse
            { smitheryConnected := true, smitheryReconnect := false, ordiscanConnected := false,
              ordiscanReconnect := false, braveApiKey := true }
            ["brave_web_search", "brave_local_search"] []) "brave-search")
          = Route.smitheryCall "brave_web_search")
    ∧ (mapToolName (toolsListResponse
          { smitheryConnected := false, smitheryReconnect := false, ordiscanConnected := false,
            ordiscanReconnect := false, braveApiKey := true }
          ["brave_web_search"] []) "brave-search" = "brave-search"
       ∧ routeToolCall
          { smitheryConnected := false, smitheryReconnect := false, ordiscanConnected := false,
            ordiscanReconnect := false, braveApiKey := true }
          (mapToolName (toolsListResponse
            { smitheryConnected := false, smitheryReconnect := false, ordiscanConnected := false,
              ordiscanReconnect := false, braveApiKey := true }
            ["brave_web_search"] []) "brave-search") = Route.localBrave) :=
  ⟨(brave_resolution_prefers_hosted _ _).1 rfl rfl,
   (brave_resolution_prefers_hosted _ _).2 rfl rfl rfl rfl rfl⟩

/-- C6: once the client is disconnected and the attempt counter has reached
`maxReconnectAttempts`, `ensureConnection` returns false, makes zero
network connection attempts, and leaves the state unchanged — for any
network behaviour; and a successful `initialize` reports success, sets
the connected flag, resets the counter to zero, and makes the next
`ensureConnection` a no-op returning true. -/
theorem gateway_reconnect_bounded (st : SmitheryState) (b : Bool) :
    ((st.isConnected && st.hasClient) = false →
     st.maxReconnectAttempts ≤ st.reconnectAttempts →
     smitheryEnsure st b = (false, st, 0))
    ∧ ((smitheryInitStep st true).1 = true
       ∧ (smitheryInitStep st true).2.isConnected = true
       ∧ (smitheryInitStep st true).2.reconnectAttempts = 0
       ∧ smitheryEnsure (smitheryInitStep st true).2 b
           = (true, (smitheryInitStep st true).2, 0)) :=
  ⟨fun hc hmax => smithery_ensure_exhausted st b hc hmax, smithery_init_success st b⟩

/-- C6 witness: three consecutive failed reconnects from a fresh client
exhaust the counter (it reaches 3), after which `ensureConnection`
returns false with zero further attempts and an unchanged state. -/
theorem gateway_reconnect_bounded_witness :
    (smitheryEnsureFailed (smitheryEnsureFailed (smitheryEnsureFailed smitheryNew))).reconnectAttempts
        = 3
    ∧ smitheryEnsure
        (smitheryEnsureFailed (smitheryEnsureFailed (smitheryEnsureFailed smitheryNew))) true
      = (false, smitheryEnsureFailed (smitheryEnsureFailed (smitheryEnsureFailed smitheryNew)), 0) :=
  ⟨rfl, (gateway_reconnect_bounded
      (smitheryEnsureFailed (smitheryEnsureFailed (smitheryEnsureFailed smitheryNew))) true).1
      rfl (by decide)⟩

/-- C7: the block `Title: A\nDescription: B\nURL: C` normalizes to the hit
`{title: A, description: B, url: C}`; a block with no `URL: ` line parses
to nothing (so it is excluded from the results and from `total`); an
empty content list normalizes to `results: []`, `total: 0`; and `total`
always equals the number of retained results. -/
theorem brave_normalization_shape (q block : String) (content : List ContentBlock) :
    parseBraveText "Title: A\nDescription: B\nURL: C"
      = [{ title := "A", description := "B", url := "C" }]
    ∧ ((∀ line ∈ strSplitOn block "\n", strStartsWith line "URL: " = false) →
        parseBlock block = none)
    ∧ normalizeBraveSearch q []
      = { query := q, total := 0, results := [], source := "smithery" }
    ∧ (normalizeBraveSearch q content).total = (normalizeBraveSearch q content).results.length :=
  ⟨rfl, parseBlock_of_no_url block, rfl, rfl⟩

/-- C7 witness: a concrete block with no `URL: ` line is excluded. -/
theorem brave_normalization_shape_witness :
    (∀ line ∈ strSplitOn "Title: X\nDescription: Y" "\n", strStartsWith line "URL: " = false)
    ∧ parseBlock "Title: X\nDescription: Y" = none :=
  ⟨by decide, (brave_normalization_shape "q" "Title: X\nDescription: Y" []).2.1 (by decide)⟩

/-- C8: a non-empty content text on which JSON parsing fails is wrapped
verbatim as `{ data: <rawText> }`, and the Ordiscan call still completes
successfully with that wrapped payload — the malformed upstream text
never produces an error at the normalization step.  (An empty content
text is skipped by the truthiness guard of server.js line 635 before any
JSON attempt, leaving the initial empty object.) -/
theorem ordiscan_malformed_payload_degrades (name k t : String)
    (params : List (String × JsonValue)) (rest : List ContentBlock)
    (gateway : String → List (String × JsonValue) → Except String (List ContentBlock))
    (hjson : jsonParse t = none) (hne : (t == "") = false) (hk : (k == "") = false)
    (hgw : gateway name (objSet params "apiKey" (.jstr k))
        = .ok ({ text := some t } :: rest)) :
    ordiscanParsedData ({ text := some t } :: rest)
      = JsonValue.jobj [("data", JsonValue.jstr t)]
    ∧ (ordiscanDispatch name params (some k) gateway).1.success = true
    ∧ (ordiscanDispatch name params (some k) gateway).1.result
        = some (ordiscanFormat name params (JsonValue.jobj [("data", JsonValue.jstr t)]))
    ∧ (ordiscanDispatch name params (some k) gateway).1.error = none := by
  have hp : ordiscanParsedData ({ text := some t } :: rest)
      = JsonValue.jobj [("data", JsonValue.jstr t)] := by
    unfold ordiscanParsedData
    simp [hne, hjson]
  refine ⟨hp, ?_, ?_, ?_⟩ <;> (unfold ordiscanDispatch; simp [hk, hgw, hp])

/-- C8 witness: the text `not json!` fails JSON parsing and the call
completes successfully with the wrapped payload. -/
theorem ordiscan_malformed_payload_degrades_witness :
    jsonParse "not json!" = none
    ∧ (ordiscanDispatch "ordiscan_main" [] (some "K")
        (fun _ _ => Except.ok [{ text := some "not json!" }])).1.success = true
    ∧ (ordiscanDispatch "ordiscan_main" [] (some "K")
        (fun _ _ => Except.ok [{ text := some "not json!" }])).1.result
      = some (ordiscanFormat "ordiscan_main" []
          (JsonValue.jobj [("data", JsonValue.jstr "not json!")])) := by
  have h := ordiscan_malformed_payload_degrades "ordiscan_main" "K" "not json!" [] []
      (fun _ _ => Except.ok [{ text := some "not json!" }]) rfl rfl rfl rfl
  exact ⟨rfl, h.2.1, h.2.2.1⟩

/-- C9: the dispatch switch services the exact name `brave-search` by the
local implementation when a local API key exists and fails otherwise —
never by the hosted gateway, whatever the connection state; and the only
request name that dispatches to the hosted `brave_web_search` call is
`brave_web_search` itself. -/
theorem server_local_name_never_hosted (st : ServerState) (n : String) :
    routeToolCall st "brave-search"
      = (if st.braveApiKey then Route.localBrave
         else Route.routeFail
           "Brave Search not available - no Smithery connection and no local API key configured")
    ∧ (∀ tool, routeToolCall st "brave-search" ≠ Route.smitheryCall tool)
    ∧ (routeToolCall st n = Route.smitheryCall "brave_web_search" → n = "brave_web_search") := by
  refine ⟨route_brave_search_local st, ?_, route_hosted_only_exact st n⟩
  intro tool
  rw [route_brave_search_local st]
  cases st.braveApiKey <;> simp

/-- C9 witness: with the hosted backend connected and a local key present,
`brave-search` still routes locally, and the hosted web-search route
implies the exact hosted name. -/
theorem server_local_name_never_hosted_witness :
    routeToolCall
        { smitheryConnected := true, smitheryReconnect := false, ordiscanConnected := false,
          ordiscanReconnect := false, braveApiKey := true } "brave-search"
      = Route.localBrave
    ∧ ("brave_web_search" : String) = "brave_web_search" := by
  refine ⟨?_, (server_local_name_never_hosted
      { smitheryConnected := true, smitheryReconnect := false, ordiscanConnected := false,
        ordiscanReconnect := false, braveApiKey := true } "brave_web_search").2.2 rfl⟩
  have h := (server_local_name_never_hosted
      { smitheryConnected := true, smitheryReconnect := false, ordiscanConnected := false,
        ordiscanReconnect := false, braveApiKey := true } "x").1
  simpa using h

/-- C10: a dispatched Ordiscan call forwards the incoming params extended
with exactly the one added field `apiKey` holding the environment key:
the forwarded object is the params with `apiKey` appended, `apiKey` looks
up to the environment key, and every other field is unchanged; with the
key unset the call fails before any gateway dispatch. -/
theorem ordiscan_params_apikey_added (name k : String) (params : List (String × JsonValue))
    (gateway : String → List (String × JsonValue) → Except String (List ContentBlock))
    (hk : (k == "") = false) (habsent : objGet params "apiKey" = none) :
    (ordiscanDispatch name params (some k) gateway).2
      = [(name, params ++ [("apiKey", JsonValue.jstr k)])]
    ∧ objGet (objSet params "apiKey" (JsonValue.jstr k)) "apiKey" = some (JsonValue.jstr k)
    ∧ (∀ key, (key == "apiKey") = false →
        objGet (objSet params "apiKey" (JsonValue.jstr k)) key = objGet params key)
    ∧ (ordiscanDispatch name params none gateway).2 = []
    ∧ (ordiscanDispatch name params none gateway).1.success = false := by
  refine ⟨?_, objGet_objSet_same params "apiKey" _,
         fun key hkey => objGet_objSet_other params "apiKey" key _ hkey, rfl, rfl⟩
  unfold ordiscanDispatch
  simp only [hk]
  rw [objSet_append_of_absent params "apiKey" _ habsent]
  cases gateway name (params ++ [("apiKey", JsonValue.jstr k)]) <;> rfl

/-- C10 witness: a concrete dispatched call forwards the params with the
`apiKey` field appended; with the key unset no gateway call is made. -/
theorem ordiscan_params_apikey_added_witness :
    (ordiscanDispatch "ordiscan_main" [("address", JsonValue.jstr "bc1")] (some "K")
        (fun _ _ => Except.ok [])).2
      = [("ordiscan_main", [("address", JsonValue.jstr "bc1"), ("apiKey", JsonValue.jstr "K")])]
    ∧ (ordiscanDispatch "ordiscan_main" [("address", JsonValue.jstr "bc1")] none
        (fun _ _ => Except.ok [])).2 = [] := by
  have h := ordiscan_params_apikey_added "ordiscan_main" "K" [("address", JsonValue.jstr "bc1")]
      (fun _ _ => Except.ok []) rfl rfl
  exact ⟨h.1, h.2.2.2.1⟩

end EnhancedCli
